import Mathlib

/-!
Verification development for the Crypto_poll backend (Rust, axum/sqlx over
PostgreSQL).  The database-facing handlers are shallowly embedded as pure
Lean functions over an explicit store state; each SQL round trip that can
fail is parameterised by a boolean failure oracle.  Timestamps are modelled
as `Int`, `i32`/`i64` machine integers as `Int` (no arithmetic here comes
near overflow), and the f64 percentages of `get_poll_results` as `ℚ`.
Store-assigned columns that no handler reads (`votes.id`, `votes.created_at`)
are omitted from the vote row model.
-/

namespace CryptoPoll

/-- A row of the `polls` table (`src/models.rs` / `src/main.rs`): id, title,
ordered option list, expiry and creation timestamps. -/
structure Poll where
  id : Nat
  title : String
  options : List String
  expiresAt : Int
  createdAt : Int
  deriving Repr, DecidableEq

/-- A row of the `votes` table used by `src/handlers.rs` (`src/models.rs`):
poll reference, chosen option index (an `i32`, unvalidated by the code), and
the voter identifier derived from request headers. -/
structure Vote where
  pollId : Nat
  optionIndex : Int
  voterIp : String
  deriving Repr, DecidableEq

/-- The shared mutable store: the `polls` and `votes` tables. -/
structure DbState where
  polls : List Poll
  votes : List Vote
  deriving Repr, DecidableEq

/-- Outcomes of `submit_vote` in `src/handlers.rs`, one constructor per
`return` site: `ok` (200, `Json(())`), `notFound` (404 "No active poll"),
`expired` (400 "Poll has expired"), `alreadyVoted` (400 "Already voted"),
and `storageError` (500, any failed query). -/
inductive VoteOutcome where
  | ok
  | notFound
  | expired
  | alreadyVoted
  | storageError
  deriving Repr, DecidableEq

/-- Failure oracle for the three database round trips of `submit_vote`:
the current-poll fetch, the existing-vote check, and the insert. -/
structure VoteOracle where
  fetchFails : Bool
  checkFails : Bool
  insertFails : Bool
  deriving Repr, DecidableEq

/-- The query `SELECT * FROM polls ORDER BY created_at DESC LIMIT 1`: the poll with
the greatest `created_at` (first such row on ties). -/
def currentPoll (s : DbState) : Option Poll :=
  s.polls.foldl
    (fun acc p =>
      match acc with
      | none => some p
      | some q => if p.createdAt > q.createdAt then some p else some q)
    none

/-- Voter-identifier extraction in `submit_vote` (`src/handlers.rs:85-90`):
`headers.get("x-real-ip").or_else(get "x-forwarded-for").and_then(to_str.ok)
.unwrap_or("unknown")`.  A header is `Option (Option String)`: outer layer is
presence, inner layer is whether the bytes are valid text.  Note the
valid-text conversion applies after the `or_else`, so a present but invalid
`x-real-ip` yields "unknown" without consulting `x-forwarded-for`. -/
def extract_voter_ip (xRealIp xForwardedFor : Option (Option String)) : String :=
  match xRealIp <|> xForwardedFor with
  | none => "unknown"
  | some v => v.getD "unknown"

/-- Handler `submit_vote` (`src/handlers.rs:80-145`), sequential semantics: derive the
voter ip from headers, fetch the current poll (404 if none), reject if
`now > expires_at` (strict, per the code), query for an existing
`(poll_id, voter_ip)` vote and reject with `alreadyVoted` if one exists,
otherwise insert the vote row.  Every failed query maps to a 500
(`storageError`) and each query is a separate round trip on the pool — there
is no transaction around the check and the insert. -/
def submit_vote (s : DbState) (o : VoteOracle) (now : Int)
    (xRealIp xForwardedFor : Option (Option String)) (optionIndex : Int) :
    VoteOutcome × DbState :=
  let voterIp := extract_voter_ip xRealIp xForwardedFor
  if o.fetchFails then (.storageError, s)
  else
    match currentPoll s with
    | none => (.notFound, s)
    | some p =>
      if now > p.expiresAt then (.expired, s)
      else if o.checkFails then (.storageError, s)
      else if s.votes.any (fun v => v.pollId == p.id && v.voterIp == voterIp) then
        (.alreadyVoted, s)
      else if o.insertFails then (.storageError, s)
      else (.ok, { s with votes := s.votes ++ [⟨p.id, optionIndex, voterIp⟩] })

/-- Request body of the `src/handlers.rs` create endpoint
(`src/models.rs::CreatePoll`): raw title, raw options, relative expiry. -/
structure CreatePollPayload where
  title : String
  options : List String
  expiresInMinutes : Int
  deriving Repr, DecidableEq

/-- The error sites of `create_poll` in `src/handlers.rs`, one per failed
round trip (each is rendered as a 500 response). -/
inductive CreatePollErr where
  | txBegin
  | delVotes
  | delPolls
  | insert
  | commit
  deriving Repr, DecidableEq

/-- Failure oracle for the five fallible steps of the `src/handlers.rs`
`create_poll` transaction. -/
structure TxOracle where
  beginFails : Bool
  delVotesFails : Bool
  delPollsFails : Bool
  insertFails : Bool
  commitFails : Bool
  deriving Repr, DecidableEq

/-- Handler `create_poll` (`src/handlers.rs:14-59`): begin a transaction, `DELETE FROM
votes`, `DELETE FROM polls`, insert the new poll, commit.  All statements run
on the transaction, so an early error return drops the transaction and rolls
everything back: the published state is the initial one on every error path.
Expiry is `Utc::now() + Duration::minutes(expires_in_minutes)`, modelled with
minutes as the time unit; the id and `created_at` are store-assigned
(`newId`, `now`).  The payload is inserted with no validation whatsoever. -/
def handlers_create_poll (s : DbState) (o : TxOracle) (now : Int) (newId : Nat)
    (payload : CreatePollPayload) : (Except CreatePollErr Poll) × DbState :=
  if o.beginFails then (.error .txBegin, s)
  else if o.delVotesFails then (.error .delVotes, s)
  else
    let tx1 : DbState := { s with votes := [] }
    if o.delPollsFails then (.error .delPolls, s)
    else
      let tx2 : DbState := { tx1 with polls := [] }
      if o.insertFails then (.error .insert, s)
      else
        let p : Poll :=
          ⟨newId, payload.title, payload.options, now + payload.expiresInMinutes, now⟩
        let tx3 : DbState := { tx2 with polls := tx2.polls ++ [p] }
        if o.commitFails then (.error .commit, s)
        else (.ok p, tx3)

/-- The error type of `src/main.rs` (`AppError`); the `sqlx::Error` payload of
the `Database` variant is dropped. -/
inductive AppError where
  | validation (msg : String)
  | database
  | notFound (msg : String)
  | invalidUuid (msg : String)
  deriving Repr, DecidableEq

/-- Rust's `str::trim`: drop leading and trailing whitespace.  Modelled over
the character list (Unicode `White_Space` narrowed to the ASCII whitespace of
`Char.isWhitespace`, which all inputs here stay within). -/
def rust_trim (s : String) : String :=
  String.mk (((s.data.dropWhile Char.isWhitespace).reverse.dropWhile
    Char.isWhitespace).reverse)

/-- Request body of the `src/main.rs` create endpoint
(`CreatePollRequest`): raw title, raw options, absolute expiry. -/
structure MainCreatePayload where
  title : String
  options : List String
  expiresAt : Int
  deriving Repr, DecidableEq

/-- Handler `create_poll` (`src/main.rs:94-140`): trim the title and reject when the
trimmed title is empty; reject when fewer than 2 options are supplied; keep
the options that are non-empty after trimming (the kept strings themselves
stay untrimmed) and reject when fewer than 2 remain; then insert the poll
(trimmed title, filtered options, the given absolute expiry, store-assigned
id and `created_at`). -/
def main_create_poll (s : DbState) (dbFails : Bool) (now : Int) (newId : Nat)
    (payload : MainCreatePayload) : (Except AppError Poll) × DbState :=
  let title := rust_trim payload.title
  if title.isEmpty then (.error (.validation "Poll title cannot be empty"), s)
  else if payload.options.length < 2 then
    (.error (.validation "At least 2 options required"), s)
  else
    let validOptions := payload.options.filter (fun opt => !(rust_trim opt).isEmpty)
    if validOptions.length < 2 then
      (.error (.validation "At least 2 non-empty options required"), s)
    else if dbFails then (.error .database, s)
    else
      let p : Poll := ⟨newId, title, validOptions, payload.expiresAt, now⟩
      (.ok p, { s with polls := s.polls ++ [p] })

/-- One entry of the `src/main.rs` results payload (`PollOptionResult`); the
f64 percentage is modelled exactly over `ℚ`. -/
structure PollOptionResult where
  text : String
  votes : Int
  percentage : ℚ
  deriving Repr, DecidableEq

/-- The `src/main.rs` results payload (`PollResults`). -/
structure PollResults where
  options : List PollOptionResult
  totalVotes : Int
  deriving Repr, DecidableEq

/-- The query `SELECT COUNT(*) FROM votes WHERE poll_id = $1`. -/
def pollVoteCount (s : DbState) (pollId : Nat) : Int :=
  ((s.votes.filter (fun v => v.pollId == pollId)).length : Int)

/-- The query `SELECT COUNT(*) FROM votes WHERE poll_id = $1 AND option_index = $2`. -/
def optionVoteCount (s : DbState) (pollId : Nat) (index : Int) : Int :=
  ((s.votes.filter (fun v => v.pollId == pollId && v.optionIndex == index)).length : Int)

/-- Body of the per-option loop of `get_poll_results`
(`src/main.rs:176-199`): for the enumerated option `iw = (index, text)`,
count the votes carrying exactly that index and compute
`votes / total_votes * 100` when `total_votes > 0`, else `0`.  No rounding
is applied. -/
def tallyOption (s : DbState) (pollId : Nat) (iw : ℕ × String) : PollOptionResult :=
  let votes := optionVoteCount s pollId (Int.ofNat iw.1)
  let totalVotes := pollVoteCount s pollId
  { text := iw.2
    votes := votes
    percentage := if totalVotes > 0 then (votes : ℚ) / (totalVotes : ℚ) * 100 else 0 }

/-- Handler `get_poll_results` (`src/main.rs:144-202`): look the poll up by id (404 if
absent), count all of its votes as `total_votes`, then run the per-option
loop `tallyOption` over the enumerated options.  Any failed query surfaces as
`AppError.database`. -/
def get_poll_results (s : DbState) (dbFails : Bool) (pollId : Nat) :
    Except AppError PollResults :=
  if dbFails then .error .database
  else
    match s.polls.find? (fun p => p.id == pollId) with
    | none => .error (.notFound "Poll not found")
    | some p =>
      .ok { options := p.options.enum.map (tallyOption s pollId)
            totalVotes := pollVoteCount s pollId }

/-- A row of the symbol-keyed `votes` table used by `src/poll.rs`:
a symbol and its counter. -/
structure SymbolRow where
  symbol : String
  votes : Int
  deriving Repr, DecidableEq

/-- Function `vote` (`src/poll.rs:11-26`): `INSERT INTO votes (symbol, votes) VALUES
($1, 1) ON CONFLICT (symbol) DO UPDATE SET votes = votes.votes + 1`, then the
confirmation string.  The conflict target implies symbols are unique, so the
upsert increments the row for `symbol` when present and inserts a fresh row
with count 1 otherwise; no voter identity is involved anywhere. -/
def poll_vote (rows : List SymbolRow) (symbol : String) : String × List SymbolRow :=
  if rows.any (fun r => r.symbol == symbol) then
    ("Vote recorded for " ++ symbol ++ "!",
      rows.map (fun r => if r.symbol == symbol then { r with votes := r.votes + 1 } else r))
  else
    ("Vote recorded for " ++ symbol ++ "!", rows ++ [⟨symbol, 1⟩])

/-- The counter currently stored for `symbol`, if any. -/
def symbolVotes (rows : List SymbolRow) (symbol : String) : Option Int :=
  (rows.find? (fun r => r.symbol == symbol)).map (fun r => r.votes)

/-- Does the votes table already hold a row for this `(poll_id, voter_ip)`
pair?  Used both by the existing-vote `SELECT` of `submit_vote` and by the
modelled uniqueness constraint. -/
def hasVoteFor (votes : List Vote) (pollId : Nat) (voterIp : String) : Bool :=
  votes.any (fun v => v.pollId == pollId && v.voterIp == voterIp)

/-- Position of one in-flight `submit_vote` request between its database
round trips: before the current-poll `SELECT`, before the expiry test and the
existing-vote `SELECT`, before the `INSERT`, or finished with an outcome. -/
inductive ReqPhase where
  | fetchPoll
  | checkVote (p : Poll)
  | insertVote (p : Poll)
  | finished (r : VoteOutcome)
  deriving Repr, DecidableEq

/-- A configuration of the concurrent system: the store plus the phase of
each in-flight request. -/
structure Config where
  db : DbState
  threads : List ReqPhase
  deriving Repr, DecidableEq

/-- One atomic database round trip of `submit_vote` (`src/handlers.rs:80-145`)
for a single request.  The queries run directly on the pool with no
surrounding transaction, so each is one atomic step and the store can change
between them.  `constraint` says whether the schema carries the
`UNIQUE(poll_id, voter_identifier)` constraint (the migrations are not in the
repository; the constraint variant is modelled from the spec).  A
constraint-violating `INSERT` is mapped by the code's `map_err` to a 500,
i.e. `storageError` — not to `alreadyVoted`. -/
def stepThread (constraint : Bool) (now : Int) (voterIp : String) (optionIndex : Int)
    (db : DbState) : ReqPhase → ReqPhase × DbState
  | .fetchPoll =>
    match currentPoll db with
    | none => (.finished .notFound, db)
    | some p => (.checkVote p, db)
  | .checkVote p =>
    if now > p.expiresAt then (.finished .expired, db)
    else if hasVoteFor db.votes p.id voterIp then (.finished .alreadyVoted, db)
    else (.insertVote p, db)
  | .insertVote p =>
    if constraint && hasVoteFor db.votes p.id voterIp then
      (.finished .storageError, db)
    else (.finished .ok, { db with votes := db.votes ++ [⟨p.id, optionIndex, voterIp⟩] })
  | .finished r => (.finished r, db)

/-- Advance the `i`-th request by one round trip (no change if `i` is out of
range or that request is finished). -/
def stepConfig (constraint : Bool) (now : Int) (voterIp : String) (optionIndex : Int)
    (c : Config) (i : Nat) : Config :=
  match c.threads.get? i with
  | none => c
  | some ph =>
    let next := stepThread constraint now voterIp optionIndex c.db ph
    { db := next.2, threads := c.threads.set i next.1 }

/-- Run a schedule: the listed request indices take their next round trips in
that order. -/
def runSchedule (constraint : Bool) (now : Int) (voterIp : String) (optionIndex : Int)
    (c : Config) (sched : List Nat) : Config :=
  sched.foldl (stepConfig constraint now voterIp optionIndex) c

/-- Modelled from the spec: "rounded to one decimal place" — round the exact
percentage to the nearest tenth.  Used only to compare the spec's wording
against what the code computes. -/
def roundTo1dp (q : ℚ) : ℚ := ((round (q * 10) : ℤ) : ℚ) / 10

/-- A two-option active poll (expiry 100, created at 0), the shared concrete
fixture for the closed theorems. -/
def bestCoinPoll : Poll := ⟨1, "Best coin", ["BTC", "ETH"], 100, 0⟩

/-- C1: the claim says concurrent duplicate submissions leave exactly one
stored vote with the other submissions answered `AlreadyVoted`, recorded by
an unconditional insert whose constraint violation is translated to
`AlreadyVoted`.  The code instead runs a non-atomic check-then-insert and
maps insert errors to a 500.  Interleaving two same-voter requests
check-check-insert-insert on an active poll: with the spec's uniqueness
constraint in the schema one row is stored but the loser gets
`storageError`, not `alreadyVoted`; without the constraint both requests
succeed and two rows are stored. -/
theorem claim_C1_race_eval :
    (runSchedule true 50 "unknown" 0 ⟨⟨[bestCoinPoll], []⟩, [.fetchPoll, .fetchPoll]⟩
        [0, 1, 0, 1, 0, 1]
      = ⟨⟨[bestCoinPoll], [⟨1, 0, "unknown"⟩]⟩, [.finished .ok, .finished .storageError]⟩)
    ∧ (runSchedule false 50 "unknown" 0 ⟨⟨[bestCoinPoll], []⟩, [.fetchPoll, .fetchPoll]⟩
        [0, 1, 0, 1, 0, 1]
      = ⟨⟨[bestCoinPoll], [⟨1, 0, "unknown"⟩, ⟨1, 0, "unknown"⟩]⟩,
          [.finished .ok, .finished .ok]⟩) := by
  constructor <;> decide

/-- C2: the single-active-poll `create_poll` of `src/handlers.rs` is atomic —
on any failing step the published state is exactly the initial one (the
dropped transaction rolls back), and on success the state holds exactly the
new poll and no votes. -/
theorem claim_C2_create_poll_atomic (s : DbState) (o : TxOracle) (now : Int)
    (newId : Nat) (payload : CreatePollPayload) :
    (∀ e, (handlers_create_poll s o now newId payload).1 = .error e →
        (handlers_create_poll s o now newId payload).2 = s)
    ∧ ∀ p, (handlers_create_poll s o now newId payload).1 = .ok p →
        (handlers_create_poll s o now newId payload).2 = { polls := [p], votes := [] } := by
  obtain ⟨b1, b2, b3, b4, b5⟩ := o
  cases b1 <;> cases b2 <;> cases b3 <;> cases b4 <;> cases b5 <;>
    simp [handlers_create_poll]

/-- Witness for C2: a failure while deleting the old poll leaves a state with
one poll and one vote untouched. -/
theorem claim_C2_witness :
    (handlers_create_poll ⟨[bestCoinPoll], [⟨1, 0, "unknown"⟩]⟩
        ⟨false, false, true, false, false⟩ 200 2 ⟨"t", ["A", "B"], 60⟩).2
      = ⟨[bestCoinPoll], [⟨1, 0, "unknown"⟩]⟩ :=
  (claim_C2_create_poll_atomic _ _ _ _ _).1 .delPolls rfl

/-- C3: the claim says an out-of-range option index is rejected with
`InvalidOptionIndex` and nothing is stored.  The code has no option-index
validation at all: submitting index 5 on the active two-option poll succeeds
and stores the out-of-range vote row. -/
theorem claim_C3_out_of_range_eval :
    submit_vote ⟨[bestCoinPoll], []⟩ ⟨false, false, false⟩ 50 none none 5
      = (.ok, ⟨[bestCoinPoll], [⟨1, 5, "unknown"⟩]⟩) := by
  decide

/-- Counterexample for C4: the code tests `Utc::now() > expires_at` strictly,
so a first-time vote arriving exactly at `expires_at` (now = 100 = expiry of
the fixture poll) is accepted and stored, where the claim demands an
`Expired` rejection at `now >= expires_at`. -/
theorem claim_C4_counterexample :
    submit_vote ⟨[bestCoinPoll], []⟩ ⟨false, false, false⟩ 100 none none 0
      = (.ok, ⟨[bestCoinPoll], [⟨1, 0, "unknown"⟩]⟩) := by
  decide

/-- C4 amended: a submission with `now` strictly after `expires_at` of the
resolved current poll is rejected with `Expired` and stores nothing, even for
a first-time voter; a submission exactly at `expires_at` is not rejected. -/
theorem claim_C4_expired_strict (s : DbState) (o : VoteOracle) (now : Int)
    (h1 h2 : Option (Option String)) (idx : Int) (p : Poll)
    (hf : o.fetchFails = false) (hp : currentPoll s = some p)
    (hexp : now > p.expiresAt) :
    submit_vote s o now h1 h2 idx = (.expired, s) := by
  simp [submit_vote, hf, hp, hexp]

/-- Witness for C4: one time unit past expiry, the fixture poll rejects a
fresh voter with `Expired` and the state is unchanged. -/
theorem claim_C4_witness :
    submit_vote ⟨[bestCoinPoll], []⟩ ⟨false, false, false⟩ 101 none none 0
      = (.expired, ⟨[bestCoinPoll], []⟩) :=
  claim_C4_expired_strict _ _ _ _ _ _ bestCoinPoll (by decide) (by decide) (by decide)

/-- C7: `submit_vote` never touches the polls table, appends exactly one row
to the votes table when it returns `ok`, and leaves the whole store unchanged
on every non-`ok` outcome. -/
theorem claim_C7_frame (s : DbState) (o : VoteOracle) (now : Int)
    (h1 h2 : Option (Option String)) (idx : Int) :
    (submit_vote s o now h1 h2 idx).2.polls = s.polls
    ∧ ((submit_vote s o now h1 h2 idx).1 = .ok →
        ∃ v, (submit_vote s o now h1 h2 idx).2.votes = s.votes ++ [v])
    ∧ ((submit_vote s o now h1 h2 idx).1 ≠ .ok →
        (submit_vote s o now h1 h2 idx).2 = s) := by
  simp only [submit_vote]
  split
  · simp
  · split
    · simp
    · split
      · simp
      · split
        · simp
        · split
          · simp
          · split <;> simp

/-- Witness for C7: a successful submission on the empty-votes fixture state
appends exactly one row. -/
theorem claim_C7_witness :
    ∃ v, (submit_vote ⟨[bestCoinPoll], []⟩ ⟨false, false, false⟩ 50 none none 0).2.votes
      = ([] : List Vote) ++ [v] :=
  (claim_C7_frame ⟨[bestCoinPoll], []⟩ ⟨false, false, false⟩ 50 none none 0).2.1 (by decide)

/-- Counterexample for C5: the repository has two create handlers and the
`src/handlers.rs` one performs no validation at all — a successful call with
an empty title and an empty option list stores a poll with zero options,
refuting "every poll stored by a successful CreatePoll has at least 2
options". -/
theorem claim_C5_counterexample :
    handlers_create_poll ⟨[], []⟩ ⟨false, false, false, false, false⟩ 200 2 ⟨"", [], 60⟩
      = (.ok ⟨2, "", [], 260, 200⟩, ⟨[⟨2, "", [], 260, 200⟩], []⟩) := by
  rfl

/-- C5 amended, restricted to the `src/main.rs` create handler (the
`src/handlers.rs` variant stores its payload unvalidated): the title is
trimmed and an empty trimmed title is a `ValidationError` leaving the state
unchanged; when fewer than 2 options survive the non-empty-after-trim filter
the call is a `ValidationError` leaving the state unchanged; and every
successfully stored poll has at least 2 options, none empty after trimming,
with the trimmed title. -/
theorem claim_C5_main_validation (s : DbState) (dbFails : Bool) (now : Int)
    (newId : Nat) (payload : MainCreatePayload) :
    ((rust_trim payload.title).isEmpty = true →
        main_create_poll s dbFails now newId payload
          = (.error (.validation "Poll title cannot be empty"), s))
    ∧ ((payload.options.filter (fun opt => !(rust_trim opt).isEmpty)).length < 2 →
        (∃ msg, (main_create_poll s dbFails now newId payload).1
            = .error (.validation msg))
        ∧ (main_create_poll s dbFails now newId payload).2 = s)
    ∧ ∀ p, (main_create_poll s dbFails now newId payload).1 = .ok p →
        2 ≤ p.options.length
        ∧ (∀ opt ∈ p.options, (rust_trim opt).isEmpty = false)
        ∧ p.title = rust_trim payload.title
        ∧ (main_create_poll s dbFails now newId payload).2
            = { s with polls := s.polls ++ [p] } := by
  refine ⟨?_, ?_, ?_⟩
  · intro h
    simp [main_create_poll, h]
  · intro h
    by_cases ht : (rust_trim payload.title).isEmpty
    · simp [main_create_poll, ht]
    · by_cases hlen : payload.options.length < 2
      · simp [main_create_poll, ht, hlen]
      · simp [main_create_poll, ht, hlen, h]
  · intro p hp
    by_cases ht : (rust_trim payload.title).isEmpty
    · simp [main_create_poll, ht] at hp
    · by_cases hlen : payload.options.length < 2
      · simp [main_create_poll, ht, hlen] at hp
      · by_cases hv :
          (payload.options.filter (fun opt => !(rust_trim opt).isEmpty)).length < 2
        · simp [main_create_poll, ht, hlen, hv] at hp
        · cases dbFails
          · simp [main_create_poll, ht, hlen, hv] at hp
            subst hp
            refine ⟨?_, ?_, rfl, ?_⟩
            · show 2 ≤ (payload.options.filter (fun opt => !(rust_trim opt).isEmpty)).length
              omega
            · intro opt hopt
              have := List.of_mem_filter (p := fun opt => !(rust_trim opt).isEmpty) hopt
              simpa using this
            · simp [main_create_poll, ht, hlen, hv]
          · simp [main_create_poll, ht, hlen, hv] at hp

/-- Witness for C5: a padded title and two clean options pass validation and
the stored poll carries the trimmed title and both options. -/
theorem claim_C5_witness :
    2 ≤ (Poll.mk 7 "t" ["A", "B"] 100 0).options.length
    ∧ (∀ opt ∈ (Poll.mk 7 "t" ["A", "B"] 100 0).options, (rust_trim opt).isEmpty = false)
    ∧ (Poll.mk 7 "t" ["A", "B"] 100 0).title = rust_trim " t "
    ∧ (main_create_poll ⟨[], []⟩ false 0 7 ⟨" t ", ["A", "B"], 100⟩).2
        = { polls := ([] : List Poll) ++ [Poll.mk 7 "t" ["A", "B"] 100 0], votes := [] } := by
  have h := (claim_C5_main_validation ⟨[], []⟩ false 0 7 ⟨" t ", ["A", "B"], 100⟩).2.2
      (Poll.mk 7 "t" ["A", "B"] 100 0) rfl
  exact ⟨h.1, h.2.1, h.2.2.1, h.2.2.2⟩

/-- C9: a submission with neither ip header (or with an unreadable value)
is keyed to the fixed voter identifier "unknown"; once any such vote is
stored for the current poll, every further headerless submission on it
(while it is unexpired and the queries succeed) is rejected as
`alreadyVoted` and stores nothing. -/
theorem claim_C9_unknown_dedup :
    extract_voter_ip none none = "unknown"
    ∧ (∀ hf, extract_voter_ip (some none) hf = "unknown")
    ∧ ∀ (s : DbState) (now idx : Int) (p : Poll),
        currentPoll s = some p → ¬(now > p.expiresAt) →
        hasVoteFor s.votes p.id "unknown" = true →
        submit_vote s ⟨false, false, false⟩ now none none idx = (.alreadyVoted, s) := by
  refine ⟨rfl, fun hf => rfl, ?_⟩
  intro s now idx p hp hexp hv
  simp only [hasVoteFor] at hv
  simp [submit_vote, extract_voter_ip, hp, hexp, hv]

/-- Witness for C9: with one "unknown" vote stored on the fixture poll, a
second headerless submission (even for a different option) is rejected as
`alreadyVoted` and leaves the state unchanged. -/
theorem claim_C9_witness :
    submit_vote ⟨[bestCoinPoll], [⟨1, 0, "unknown"⟩]⟩ ⟨false, false, false⟩ 50 none none 1
      = (.alreadyVoted, ⟨[bestCoinPoll], [⟨1, 0, "unknown"⟩]⟩) :=
  claim_C9_unknown_dedup.2.2 ⟨[bestCoinPoll], [⟨1, 0, "unknown"⟩]⟩ 50 1 bestCoinPoll
    (by decide) (by decide) (by decide)

/-- Incrementing the matching rows leaves the counter found for `sym` exactly
one higher (and present iff it was present). -/
theorem symbolVotes_upd_self (rows : List SymbolRow) (sym : String) :
    symbolVotes
        (rows.map (fun r => if r.symbol == sym then { r with votes := r.votes + 1 } else r))
        sym
      = (symbolVotes rows sym).map (fun k => k + 1) := by
  induction rows with
  | nil => simp [symbolVotes]
  | cons r rows ih =>
    simp only [symbolVotes] at ih ⊢
    simp only [List.map_cons, List.find?_cons]
    by_cases h : (r.symbol == sym) = true
    · rw [if_pos h]
      have h2 : (({ r with votes := r.votes + 1 } : SymbolRow).symbol == sym) = true := h
      rw [h2]
      rfl
    · rw [if_neg h]
      have h2 : (r.symbol == sym) = false := by simpa using h
      rw [h2]
      exact ih

/-- Incrementing the rows matching `sym` does not change the counter found
for any other symbol. -/
theorem symbolVotes_upd_other (rows : List SymbolRow) (sym sym2 : String)
    (hne : sym2 ≠ sym) :
    symbolVotes
        (rows.map (fun r => if r.symbol == sym then { r with votes := r.votes + 1 } else r))
        sym2
      = symbolVotes rows sym2 := by
  induction rows with
  | nil => simp [symbolVotes]
  | cons r rows ih =>
    simp only [symbolVotes] at ih ⊢
    simp only [List.map_cons, List.find?_cons]
    by_cases hs : (r.symbol == sym) = true
    · rw [if_pos hs]
      have hr : r.symbol = sym := by simpa using hs
      have h2 : (({ r with votes := r.votes + 1 } : SymbolRow).symbol == sym2) = false := by
        show (r.symbol == sym2) = false
        rw [hr]
        simp
        exact fun hc => hne hc.symm
      rw [h2]
      exact ih
    · rw [if_neg hs]
      by_cases h : (r.symbol == sym2) = true
      · rw [h]
      · have h2 : (r.symbol == sym2) = false := by simpa using h
        rw [h2]
        exact ih

/-- C10: every call of the symbol-keyed `vote` returns the confirmation
string and either starts the symbol's counter at 1 or increments it by
exactly 1, leaving every other symbol's counter untouched — no voter
identity and no deduplication exist in this variant, so repeated calls keep
incrementing. -/
theorem claim_C10_vote_upsert (rows : List SymbolRow) (sym sym2 : String) :
    (poll_vote rows sym).1 = "Vote recorded for " ++ sym ++ "!"
    ∧ symbolVotes (poll_vote rows sym).2 sym2
        = if sym2 = sym then some ((symbolVotes rows sym).getD 0 + 1)
          else symbolVotes rows sym2 := by
  constructor
  · unfold poll_vote
    split <;> rfl
  · unfold poll_vote
    split
    · rename_i h
      by_cases he : sym2 = sym
      · subst he
        rw [if_pos rfl]
        rw [symbolVotes_upd_self]
        have hsome : (rows.find? (fun r => r.symbol == sym2)).isSome := by
          rw [List.find?_isSome]
          exact List.any_eq_true.mp h
        obtain ⟨k, hk⟩ := Option.isSome_iff_exists.mp hsome
        simp [symbolVotes, hk]
      · rw [if_neg he]
        exact symbolVotes_upd_other rows sym sym2 he
    · rename_i h
      have hnone : rows.find? (fun r => r.symbol == sym) = none := by
        rw [← Option.not_isSome_iff_eq_none, List.find?_isSome]
        intro hex
        exact absurd (List.any_eq_true.mpr hex) (by simp [h])
      by_cases he : sym2 = sym
      · subst he
        rw [if_pos rfl]
        simp [symbolVotes, List.find?_append, hnone]
      · rw [if_neg he]
        simp only [symbolVotes, List.find?_append]
        have htail : ([(⟨sym, 1⟩ : SymbolRow)].find? (fun r => r.symbol == sym2)) = none := by
          simp
          intro hcon
          exact he hcon.symm
        cases hfind : rows.find? (fun r => r.symbol == sym2) <;>
          simp [Option.orElse, hfind, htail]

/-- Summing a function over `List.range` agrees with the `Finset.range`
sum. -/
theorem range_map_sum {M : Type} [AddCommMonoid M] (n : ℕ) (f : ℕ → M) :
    ((List.range n).map f).sum = ∑ i ∈ Finset.range n, f i := by
  induction n with
  | zero => simp
  | succ m ih =>
    rw [List.range_succ, Finset.sum_range_succ, List.map_append, List.sum_append, ih]
    simp

/-- When every vote of the poll has its option index inside `[0, n)`, the
poll's total vote count splits into the per-index counts. -/
theorem vote_count_partition (vs : List Vote) (pid : Nat) (n : ℕ)
    (h : ∀ v ∈ vs, v.pollId = pid → 0 ≤ v.optionIndex ∧ v.optionIndex < (n : Int)) :
    (vs.filter (fun v => v.pollId == pid)).length
      = ∑ i ∈ Finset.range n,
          (vs.filter (fun v => v.pollId == pid && v.optionIndex == Int.ofNat i)).length := by
  induction vs with
  | nil => simp
  | cons v vs ih =>
    have hrest : ∀ w ∈ vs, w.pollId = pid → 0 ≤ w.optionIndex ∧ w.optionIndex < (n : Int) :=
      fun w hw => h w (List.mem_cons_of_mem _ hw)
    by_cases hv : v.pollId = pid
    · obtain ⟨h0, hlt⟩ := h v (List.mem_cons_self _ _) hv
      have hio : v.optionIndex = Int.ofNat v.optionIndex.toNat := by
        rw [Int.ofNat_eq_coe]
        omega
      have hi0 : v.optionIndex.toNat < n := by omega
      have hhead : (v.pollId == pid) = true := by simpa using hv
      have hterm : ∀ i : ℕ,
          ((v :: vs).filter (fun w => w.pollId == pid && w.optionIndex == Int.ofNat i)).length
            = (if i = v.optionIndex.toNat then 1 else 0)
              + (vs.filter (fun w => w.pollId == pid && w.optionIndex == Int.ofNat i)).length := by
        intro i
        by_cases hi : i = v.optionIndex.toNat
        · subst hi
          have hbeq : (v.optionIndex == Int.ofNat v.optionIndex.toNat) = true := by
            rw [← hio]
            simp
          have hc : ((fun w => w.pollId == pid && w.optionIndex
              == Int.ofNat v.optionIndex.toNat) v) = true := by
            simp only [hhead, hbeq, Bool.and_self]
          rw [List.filter_cons_of_pos (p := fun (w : Vote) => w.pollId == pid && w.optionIndex
              == Int.ofNat v.optionIndex.toNat) hc, List.length_cons, if_pos rfl]
          omega
        · have hne : ¬(v.optionIndex = Int.ofNat i) := by
            rw [hio]
            simp only [Int.ofNat_eq_coe]
            omega
          have hc : ¬(((fun w => w.pollId == pid && w.optionIndex == Int.ofNat i) v) = true) := by
            simp only [Bool.and_eq_true, beq_iff_eq, not_and]
            exact fun _ hcon => hne hcon
          rw [List.filter_cons_of_neg (p := fun (w : Vote) => w.pollId == pid && w.optionIndex
              == Int.ofNat i) hc, if_neg hi]
          omega
      have hsum : ∑ i ∈ Finset.range n,
            ((v :: vs).filter
              (fun w => w.pollId == pid && w.optionIndex == Int.ofNat i)).length
          = 1 + ∑ i ∈ Finset.range n,
              (vs.filter (fun w => w.pollId == pid && w.optionIndex == Int.ofNat i)).length := by
        rw [Finset.sum_congr rfl (fun i _ => hterm i), Finset.sum_add_distrib]
        congr 1
        rw [Finset.sum_ite_eq' (Finset.range n) v.optionIndex.toNat (fun _ => 1)]
        simp [Finset.mem_range.mpr hi0]
      have hlhs : ((v :: vs).filter (fun w => w.pollId == pid)).length
          = (vs.filter (fun w => w.pollId == pid)).length + 1 := by
        have hc0 : ((fun w => w.pollId == pid) v) = true := hhead
        rw [List.filter_cons_of_pos (p := fun (w : Vote) => w.pollId == pid) hc0, List.length_cons]
      rw [hlhs, ih hrest, hsum]
      omega
    · have hhead : (v.pollId == pid) = false := by simpa using hv
      have hterm : ∀ i : ℕ,
          (v :: vs).filter (fun w => w.pollId == pid && w.optionIndex == Int.ofNat i)
            = vs.filter (fun w => w.pollId == pid && w.optionIndex == Int.ofNat i) := by
        intro i
        have hci : ¬(((fun w => w.pollId == pid && w.optionIndex == Int.ofNat i) v) = true) := by
          simp [hhead]
        exact List.filter_cons_of_neg (p := fun (w : Vote) => w.pollId == pid && w.optionIndex
            == Int.ofNat i) hci
      have hc0 : ¬(((fun w => w.pollId == pid) v) = true) := by
        simp [hhead]
      rw [List.filter_cons_of_neg (p := fun (w : Vote) => w.pollId == pid) hc0, ih hrest]
      exact Finset.sum_congr rfl (fun i _ => by rw [hterm i])

/-- Counterexample input for C6: the fixture poll with one
out-of-range vote row stored. -/
def st6 : DbState := ⟨[bestCoinPoll], [⟨1, 5, "a"⟩]⟩

/-- Concrete store for the C8 counterexample: votes 1 and 2 on the two
options of the fixture poll. -/
def st8 : DbState := ⟨[bestCoinPoll], [⟨1, 0, "a"⟩, ⟨1, 1, "b"⟩, ⟨1, 1, "c"⟩]⟩

/-- Counterexample for C6: the claim says `totalVotes` equals the sum of the
per-option counts.  `submit_vote` can store out-of-range option indices
(claim C3's finding) and `get_poll_results` counts every vote of the poll in
`total_votes` but zero-fills only the real indices: with a single stored vote
at index 5 on the two-option fixture poll, the tally reports counts `[0, 0]`
(sum 0) yet `totalVotes = 1`. -/
theorem claim_C6_counterexample :
    ∃ res, get_poll_results st6 false 1 = .ok res
      ∧ res.totalVotes = 1
      ∧ res.options.map (fun r => r.votes) = [0, 0]
      ∧ res.totalVotes ≠ (res.options.map (fun r => r.votes)).sum := by
  refine ⟨_, rfl, rfl, rfl, ?_⟩
  decide

/-- C6 amended: `get_poll_results` answers `NotFound` when the poll id is
absent; on success the per-option list has exactly the length of
`poll.options`, aligned one-to-one in original order with zero-filled
missing groups, and `totalVotes` — the count of all the poll's votes —
equals the sum of the per-option counts provided every stored vote of the
poll has its `option_index` inside `[0, options.length)` (votes outside that
range, which `submit_vote` can store, enter `totalVotes` but no per-option
count). -/
theorem claim_C6_tally (s : DbState) (pollId : Nat) :
    (s.polls.find? (fun p => p.id == pollId) = none →
        get_poll_results s false pollId = .error (.notFound "Poll not found"))
    ∧ ∀ p, s.polls.find? (fun p => p.id == pollId) = some p →
        ∃ res, get_poll_results s false pollId = .ok res
          ∧ res.options.length = p.options.length
          ∧ res.options.map (fun r => r.text) = p.options
          ∧ ((∀ v ∈ s.votes, v.pollId = pollId →
                0 ≤ v.optionIndex ∧ v.optionIndex < (p.options.length : Int)) →
              res.totalVotes = (res.options.map (fun r => r.votes)).sum) := by
  constructor
  · intro h
    simp [get_poll_results, h]
  · intro p hp
    refine ⟨PollResults.mk (p.options.enum.map (tallyOption s pollId))
        (pollVoteCount s pollId), ?_, ?_, ?_, ?_⟩
    · simp [get_poll_results, hp]
    · simp
    · show (p.options.enum.map (tallyOption s pollId)).map (fun r => r.text) = p.options
      rw [List.map_map]
      have hcomp : ((fun r : PollOptionResult => r.text) ∘ tallyOption s pollId)
          = Prod.snd := rfl
      rw [hcomp, List.enum_map_snd]
    · intro hin
      show pollVoteCount s pollId
        = ((p.options.enum.map (tallyOption s pollId)).map (fun r => r.votes)).sum
      rw [List.map_map]
      have hcomp : ((fun r : PollOptionResult => r.votes) ∘ tallyOption s pollId)
          = (fun i : ℕ => optionVoteCount s pollId (Int.ofNat i)) ∘ Prod.fst := rfl
      rw [hcomp, ← List.map_map, List.enum_map_fst, range_map_sum]
      unfold pollVoteCount optionVoteCount
      rw [vote_count_partition s.votes pollId p.options.length hin, Nat.cast_sum]

/-- Witness for C6: one in-range vote on the fixture poll; lengths, texts
and the zero-filled counts line up and the total equals the sum. -/
theorem claim_C6_witness :
    ∃ res, get_poll_results ⟨[bestCoinPoll], [⟨1, 0, "a"⟩]⟩ false 1 = .ok res
      ∧ res.options.length = bestCoinPoll.options.length
      ∧ res.options.map (fun r => r.text) = bestCoinPoll.options
      ∧ res.totalVotes = (res.options.map (fun r => r.votes)).sum := by
  obtain ⟨res, h1, h2, h3, h4⟩ :=
    (claim_C6_tally ⟨[bestCoinPoll], [⟨1, 0, "a"⟩]⟩ 1).2 bestCoinPoll (by decide)
  exact ⟨res, h1, h2, h3, h4 (by decide)⟩

/-- C8 amended: every option of a successful tally carries the percentage
`votes / totalVotes * 100` exactly as computed (in f64, modelled over `ℚ`)
with no rounding step, and `0` when `totalVotes = 0`; the one-decimal
rounding of the claim is not performed by the code. -/
theorem claim_C8_percentage (s : DbState) (dbFails : Bool) (pollId : Nat)
    (res : PollResults) (h : get_poll_results s dbFails pollId = .ok res) :
    ∀ r ∈ res.options,
      r.percentage
        = if res.totalVotes > 0 then (r.votes : ℚ) / (res.totalVotes : ℚ) * 100
          else 0 := by
  cases dbFails
  · cases hfind : s.polls.find? (fun p => p.id == pollId) with
    | none => simp [get_poll_results, hfind] at h
    | some p =>
      simp only [get_poll_results, Bool.false_eq_true, if_false] at h
      rw [hfind] at h
      dsimp only at h
      injection h with h2
      subst h2
      intro r hr
      obtain ⟨iw, hiw, hF⟩ := List.mem_map.mp hr
      subst hF
      rfl
  · simp [get_poll_results] at h

/-- Counterexample for C8: with votes split 1-2 on the two-option fixture
poll, the first option's stored percentage is the exact quotient
`1/3 * 100`, not its one-decimal rounding `33.3` — the code never rounds. -/
theorem claim_C8_counterexample :
    ∃ res r, get_poll_results st8 false 1 = .ok res
      ∧ r ∈ res.options
      ∧ res.totalVotes = 3
      ∧ r.votes = 1
      ∧ r.percentage ≠ roundTo1dp ((r.votes : ℚ) / (res.totalVotes : ℚ) * 100) := by
  refine ⟨_, _, rfl, List.mem_cons_self _ _, rfl, rfl, ?_⟩
  have h1 : pollVoteCount st8 1 = 3 := by decide
  have h2 : optionVoteCount st8 1 (Int.ofNat 0) = 1 := by decide
  dsimp only [tallyOption]
  rw [h1, h2]
  norm_num [roundTo1dp, round_eq]

/-- Witness for C8: a poll with no votes tallies with `totalVotes = 0` and
percentage `0` for every option (no division by zero occurs). -/
theorem claim_C8_witness :
    (PollOptionResult.mk "BTC" 0 0).percentage
      = if (PollResults.mk [⟨"BTC", 0, 0⟩, ⟨"ETH", 0, 0⟩] 0).totalVotes > 0
        then ((PollOptionResult.mk "BTC" 0 0).votes : ℚ)
          / ((PollResults.mk [⟨"BTC", 0, 0⟩, ⟨"ETH", 0, 0⟩] 0).totalVotes : ℚ) * 100
        else 0 :=
  claim_C8_percentage ⟨[bestCoinPoll], []⟩ false 1
    (PollResults.mk [⟨"BTC", 0, 0⟩, ⟨"ETH", 0, 0⟩] 0) rfl
    (PollOptionResult.mk "BTC" 0 0) (List.mem_cons_self _ _)

end CryptoPoll
